import Mathlib

/-!
Verification development for the keystroke-biometrics engine
(`backend/data_processor.py` and `backend/ml_model.py`).

Shallow embedding conventions:
* Python floats are modelled as rationals (`ℚ`) where the code only does
  field arithmetic, and as reals (`ℝ`) where a square root is taken
  (`np.std`, `np.linalg.norm`, sklearn scale, scipy cosine).
* Python dicts are modelled as insertion-ordered association lists.
* The mutable `StandardScaler` is modelled by explicit state passing:
  stateful methods take the scaler and return the new scaler.
* NaN/inf values that can appear in stored feature dicts are modelled by
  the `PyFloat` type; the numeric pipeline after `_features_to_vector`
  is NaN-free by construction, mirroring the sanitization in the source.
-/

namespace KB

/-! ### Events and statistics helpers (`data_processor.py`) -/

/-- One key event as produced by the capture surface: a `type`
(`"keydown"` or `"keyup"`), a key code and a millisecond timestamp. -/
structure KeyEvent where
  type : String
  key : String
  timestamp : ℚ
deriving DecidableEq, Repr, Inhabited

/-- `[e for e in keystroke_events if e['type'] == 'keydown']` -/
def keydowns (evs : List KeyEvent) : List KeyEvent :=
  evs.filter (fun e => e.type = "keydown")

/-- `[e for e in keystroke_events if e['type'] == 'keyup']` -/
def keyups (evs : List KeyEvent) : List KeyEvent :=
  evs.filter (fun e => e.type = "keyup")

/-- `np.mean` on a list of rationals (callers guard against `[]`). -/
def qmean (l : List ℚ) : ℚ := l.sum / l.length

/-- Population variance (`np.var`, `ddof=0`). -/
def qvar (l : List ℚ) : ℚ :=
  ((l.map (fun x => (x - qmean l) ^ 2)).sum) / l.length

/-- `np.std`: square root of the population variance. -/
noncomputable def pstd (l : List ℚ) : ℝ := Real.sqrt (qvar l)

/-- `np.median`: middle element (or mean of the two middle elements) of
the sorted list.  The source only calls it on nonempty lists. -/
def qmedian (l : List ℚ) : ℚ :=
  let s := l.mergeSort (fun a b => decide (a ≤ b))
  let n := s.length
  if n = 0 then 0
  else if n % 2 = 1 then s.getD (n / 2) 0
  else (s.getD (n / 2 - 1) 0 + s.getD (n / 2) 0) / 2

/-- `np.min` on a nonempty list (0 on `[]`, unreachable in the source). -/
def qminL (l : List ℚ) : ℚ := l.foldl min (l.headD 0)

/-- `np.max` on a nonempty list (0 on `[]`, unreachable in the source). -/
def qmaxL (l : List ℚ) : ℚ := l.foldl max (l.headD 0)

/-! ### Feature extraction (`DataProcessor.extract_features`) -/

/-- Dwell times: for each press, the first release of the same key with a
strictly greater timestamp; presses with no such release are dropped. -/
def dwellTimes (evs : List KeyEvent) : List ℚ :=
  (keydowns evs).filterMap (fun kd =>
    ((keyups evs).find? (fun ku =>
        ku.key = kd.key && decide (kd.timestamp < ku.timestamp))).map
      (fun ku => ku.timestamp - kd.timestamp))

/-- Inter-key latencies: differences of consecutive press timestamps. -/
def interKeyLatencies (evs : List KeyEvent) : List ℚ :=
  let kds := keydowns evs
  (kds.zip kds.tail).map (fun p => p.2.timestamp - p.1.timestamp)

/-- Flight times: for index `i` over releases (except the last), if a
press exists at index `i+1`, keep `press[i+1] - release[i]` when it is
strictly positive. -/
def flightTimes (evs : List KeyEvent) : List ℚ :=
  let kds := keydowns evs
  let kus := keyups evs
  (List.range (kus.length - 1)).filterMap (fun i =>
    if i + 1 < kds.length then
      let f := (kds.getD (i + 1) default).timestamp - (kus.getD i default).timestamp
      if 0 < f then some f else none
    else none)

/-- Consecutive press pairs `(keydown_events[i], keydown_events[i+1])`. -/
def consecutivePairs (kds : List KeyEvent) : List (KeyEvent × KeyEvent) :=
  kds.zip kds.tail

/-- The digraph observations in order: for each consecutive press pair
whose key codes are both single characters, the concatenated key and the
latency between the two presses. -/
def digraphObs (kds : List KeyEvent) : List (String × ℚ) :=
  (consecutivePairs kds).filterMap (fun p =>
    if p.1.key.length = 1 ∧ p.2.key.length = 1 then
      some (p.1.key ++ p.2.key, p.2.timestamp - p.1.timestamp)
    else none)

/-- One dict update of `_calculate_digraph_latencies`: an existing key is
replaced in place by the running average `(previous + latency) / 2`, a
new key is appended (Python dicts preserve insertion order). -/
def dgUpdate (m : List (String × ℚ)) (kv : String × ℚ) : List (String × ℚ) :=
  if (m.lookup kv.1).isSome then
    m.map (fun p => if p.1 = kv.1 then (p.1, (p.2 + kv.2) / 2) else p)
  else m ++ [kv]

/-- `DataProcessor._calculate_digraph_latencies`. -/
def calculate_digraph_latencies (kds : List KeyEvent) : List (String × ℚ) :=
  (digraphObs kds).foldl dgUpdate []

/-- The running average applied to the later observations of an
already-seen digraph: each new value `l` replaces the stored value `a`
with `(a + l) / 2`. -/
def avgFold (first : ℚ) (rest : List ℚ) : ℚ :=
  rest.foldl (fun a l => (a + l) / 2) first

/-- The latencies observed for digraph `d`, in order. -/
def occValues (kds : List KeyEvent) (d : String) : List ℚ :=
  ((digraphObs kds).filter (fun p => p.1 = d)).map Prod.snd

/-- `DataProcessor._calculate_typing_speed` (characters per minute). -/
def calculate_typing_speed (kds : List KeyEvent) (text : String) : ℚ :=
  if kds.length < 2 then 0
  else
    let totalSeconds := ((kds.getLast?.getD default).timestamp -
      (kds.headD default).timestamp) / 1000
    if totalSeconds = 0 then 0
    else (text.length / totalSeconds) * 60

/-- `DataProcessor._calculate_rhythm_consistency`:
`1 / (1 + std/mean)`, and 0 for fewer than 2 latencies or zero mean. -/
noncomputable def calculate_rhythm_consistency (latencies : List ℚ) : ℝ :=
  if latencies.length < 2 then 0
  else if qmean latencies = 0 then 0
  else 1 / (1 + pstd latencies / (qmean latencies : ℝ))

/-- The fixed-schema feature vector: 19 numeric statistics plus the two
bounded raw-sample arrays. -/
structure FeatureVector where
  dwell_mean : ℝ
  dwell_std : ℝ
  dwell_median : ℝ
  dwell_min : ℝ
  dwell_max : ℝ
  latency_mean : ℝ
  latency_std : ℝ
  latency_median : ℝ
  latency_min : ℝ
  latency_max : ℝ
  flight_mean : ℝ
  flight_std : ℝ
  flight_median : ℝ
  typing_speed : ℝ
  total_time : ℝ
  key_count : ℝ
  rhythm_consistency : ℝ
  digraph_mean : ℝ
  digraph_std : ℝ
  raw_dwell_times : List ℚ
  raw_latencies : List ℚ

/-- `DataProcessor._empty_features`: the canonical all-zero vector. -/
def emptyFeatures : FeatureVector :=
  { dwell_mean := 0, dwell_std := 0, dwell_median := 0, dwell_min := 0
    dwell_max := 0, latency_mean := 0, latency_std := 0, latency_median := 0
    latency_min := 0, latency_max := 0, flight_mean := 0, flight_std := 0
    flight_median := 0, typing_speed := 0, total_time := 0, key_count := 0
    rhythm_consistency := 0, digraph_mean := 0, digraph_std := 0
    raw_dwell_times := [], raw_latencies := [] }

/-- `DataProcessor.extract_features`.  A total function: it terminates on
every input and, as in the source, returns `emptyFeatures` when fewer
than 2 events are supplied. -/
noncomputable def extract_features (evs : List KeyEvent) (text : String) :
    FeatureVector :=
  if evs.length < 2 then emptyFeatures
  else
    let kds := keydowns evs
    let dw := dwellTimes evs
    let lat := interKeyLatencies evs
    let fl := flightTimes evs
    let dgVals := (calculate_digraph_latencies kds).map Prod.snd
    { dwell_mean := if dw = [] then 0 else (qmean dw : ℝ)
      dwell_std := if dw = [] then 0 else pstd dw
      dwell_median := if dw = [] then 0 else (qmedian dw : ℝ)
      dwell_min := if dw = [] then 0 else (qminL dw : ℝ)
      dwell_max := if dw = [] then 0 else (qmaxL dw : ℝ)
      latency_mean := if lat = [] then 0 else (qmean lat : ℝ)
      latency_std := if lat = [] then 0 else pstd lat
      latency_median := if lat = [] then 0 else (qmedian lat : ℝ)
      latency_min := if lat = [] then 0 else (qminL lat : ℝ)
      latency_max := if lat = [] then 0 else (qmaxL lat : ℝ)
      flight_mean := if fl = [] then 0 else (qmean fl : ℝ)
      flight_std := if fl = [] then 0 else pstd fl
      flight_median := if fl = [] then 0 else (qmedian fl : ℝ)
      typing_speed := (calculate_typing_speed kds text : ℝ)
      total_time := if kds = [] then 0 else
        (((kds.getLast?.getD default).timestamp -
          (kds.headD default).timestamp : ℚ) : ℝ)
      key_count := (kds.length : ℝ)
      rhythm_consistency := calculate_rhythm_consistency lat
      digraph_mean := if dgVals = [] then 0 else (qmean dgVals : ℝ)
      digraph_std := if dgVals = [] then 0 else pstd dgVals
      raw_dwell_times := dw.take 50
      raw_latencies := lat.take 50 }

/-! ### The similarity engine (`ml_model.py`) -/

/-- A Python float value as it may occur in a stored feature dict:
a finite value (floats are rationals) or a non-finite `nan`/`inf`. -/
inductive PyFloat where
  | fin (q : ℚ)
  | nan
  | inf
  | ninf
deriving DecidableEq, Repr

/-- `np.isnan`. -/
def PyFloat.isNan : PyFloat → Bool
  | .nan => true
  | _ => false

/-- `np.isinf`. -/
def PyFloat.isInf : PyFloat → Bool
  | .inf => true
  | .ninf => true
  | _ => false

/-- Finite interpretation of a stored value; the non-finite cases are
dead at every use site (they are either sanitized first or, in the
timing comparison, only ever finite in the data produced upstream). -/
def PyFloat.toQ : PyFloat → ℚ
  | .fin q => q
  | _ => 0

/-- A feature dict: the numeric fields of a stored sample, as an
insertion-ordered association list (the two raw arrays are never read by
the similarity engine and are omitted from the model). -/
abbrev FDict := List (String × PyFloat)

/-- `features.get(name, 0)`. -/
def fget (d : FDict) (k : String) : PyFloat :=
  (d.lookup k).getD (.fin 0)

/-- `KeystrokeBiometrics.feature_names`: the canonical 19-field order. -/
def feature_names : List String :=
  ["dwell_mean", "dwell_std", "dwell_median", "dwell_min", "dwell_max",
   "latency_mean", "latency_std", "latency_median", "latency_min",
   "latency_max", "flight_mean", "flight_std", "flight_median",
   "typing_speed", "total_time", "key_count",
   "rhythm_consistency", "digraph_mean", "digraph_std"]

/-- The sanitization branch of `_features_to_vector`:
`if np.isnan(value) or np.isinf(value): value = 0`. -/
def sanitizeVal (v : PyFloat) : ℚ :=
  if v.isNan || v.isInf then 0
  else v.toQ

/-- `KeystrokeBiometrics._features_to_vector`: the 19-dimension numeric
projection, with missing fields defaulted to 0 and NaN/inf replaced
by 0.  Its codomain `List ℚ` contains no non-finite value. -/
def features_to_vector (d : FDict) : List ℚ :=
  feature_names.map (fun n => sanitizeVal (fget d n))

/-- The per-dimension normalization parameters of a fitted
`StandardScaler`: `(mean_, var_)` for each of the 19 dimensions
(`scale_` is `sqrt(var_)`, with zero variance giving a unit scale). -/
def fitParams (vs : List (List ℚ)) : List (ℚ × ℚ) :=
  (List.range feature_names.length).map (fun j =>
    let col := vs.map (fun v => v.getD j 0)
    (qmean col, qvar col))

/-- The scaler state: `none` models an unfitted `StandardScaler`
(no `mean_` attribute), `some ps` a fitted one. -/
structure Scaler where
  fitted : Option (List (ℚ × ℚ))
deriving DecidableEq, Repr

/-- One enrolled user record as read by the engine
(`user_info.get('features', [])`). -/
structure UserInfo where
  features : List FDict
deriving DecidableEq, Repr

/-- All vectors gathered by `train`. -/
def trainVectors (users : List (String × UserInfo)) : List (List ℚ) :=
  users.flatMap (fun u => u.2.features.map features_to_vector)

/-- `KeystrokeBiometrics.train`: refit the scaler on all samples of all
users; leave it untouched when no users or fewer than 2 vectors exist. -/
def train (s : Scaler) (users : List (String × UserInfo)) : Scaler :=
  if users = [] then s
  else
    let vectors := trainVectors users
    if vectors.length < 2 then s
    else ⟨some (fitParams vectors)⟩

/-- `scale_` of one dimension: `sqrt(var_)`, where sklearn maps a zero
scale to 1 so that the dimension is passed through unchanged. -/
noncomputable def scaleOf (v : ℚ) : ℝ :=
  if v = 0 then 1 else Real.sqrt (v : ℝ)

/-- `StandardScaler.transform` on one vector:
`(x - mean_) / scale_` per dimension. -/
noncomputable def transformVec (ps : List (ℚ × ℚ)) (x : List ℚ) : List ℝ :=
  (x.zip ps).map (fun xp => ((xp.1 - xp.2.1 : ℚ) : ℝ) / scaleOf xp.2.2)

/-- Dot product of two same-length vectors. -/
def dotList (u v : List ℝ) : ℝ := ((u.zip v).map (fun p => p.1 * p.2)).sum

/-- Euclidean norm. -/
noncomputable def norm2 (u : List ℝ) : ℝ :=
  Real.sqrt ((u.map (fun x => x ^ 2)).sum)

/-- `np.linalg.norm(test - user)`. -/
noncomputable def euclidean_dist (u v : List ℝ) : ℝ :=
  Real.sqrt (((u.zip v).map (fun p => (p.1 - p.2) ^ 2)).sum)

/-- `np.sum(np.abs(test - user))`. -/
def manhattan_dist (u v : List ℝ) : ℝ :=
  ((u.zip v).map (fun p => |p.1 - p.2|)).sum

/-- `scipy.spatial.distance.cosine`: `1 - u·v / (‖u‖‖v‖)`.  On a
zero-norm vector the library computes the float division `0/0`, which
produces nan together with a `RuntimeWarning` — no exception is raised.
`none` models that nan result.  (Scipy versions that clamp the distance
internally with Python `min`/`max` collapse the nan to distance 0, i.e.
similarity 1 — in either version the zero-norm case produces no
exception.) -/
noncomputable def cosineDistance (u v : List ℝ) : Option ℝ :=
  if norm2 u = 0 ∨ norm2 v = 0 then none
  else some (1 - dotList u v / (norm2 u * norm2 v))

/-- `KeystrokeBiometrics._safe_cosine_similarity`: `1 - cosine(v1, v2)`
with exceptions caught and mapped to 0.  Inside `identify` no exception
can occur (every vector is a row of one 19-column batch, so there is no
shape mismatch), and scipy's nan on zero-norm input is not an
exception, so the `except` branch is dead there: the nan propagates
through `1 - nan = nan`, modelled by `none`. -/
noncomputable def safe_cosine_similarity (u v : List ℝ) : Option ℝ :=
  (cosineDistance u v).map (fun d => 1 - d)

/-- The four temporal parameters compared by the timing similarity. -/
def timing_params : List String :=
  ["dwell_mean", "latency_mean", "flight_mean", "typing_speed"]

/-- `KeystrokeBiometrics._calculate_timing_similarity`: mean relative
difference of the non-(0,0) temporal parameters, converted to a
similarity in [0,100]; 50 when no parameter qualifies. -/
def calculate_timing_similarity (f1 f2 : FDict) : ℚ :=
  let diffs := timing_params.filterMap (fun p =>
    let v1 := (fget f1 p).toQ
    let v2 := (fget f2 p).toQ
    if v1 = 0 ∧ v2 = 0 then none
    else some (|v1 - v2| / max (max |v1| |v2|) 1))
  if diffs.length = 0 then 50
  else 100 * (1 - min (diffs.sum / diffs.length) 1)

/-- `KeystrokeBiometrics._calculate_advanced_score`: blend the four
metric scores with weights 0.25/0.25/0.20/0.30 and clamp to [0,100]. -/
noncomputable def calculate_advanced_score
    (euclideanD manhattanD cosineS timingS : ℝ) : ℝ :=
  let euclidean_score := 100 / (1 + euclideanD)
  let manhattan_score := 100 / (1 + manhattanD)
  let cosine_score := (cosineS + 1) * 50
  max 0 (min 100 (0.25 * euclidean_score + 0.25 * manhattan_score +
    0.20 * cosine_score + 0.30 * timingS))

/-- The per-sample combined score computed inside `identify`'s inner
loop for one normalized user vector.  When the cosine similarity is nan
(`none`), the nan flows through `_calculate_advanced_score`: the whole
weighted blend is nan, and Python's `max(0, min(100, nan))` evaluates
to 100 — every comparison with nan is false, so `min` keeps its first
argument 100 and `max` returns it. -/
noncomputable def sampleScore (tq tv : List ℝ) (qf sf : FDict) : ℝ :=
  match safe_cosine_similarity tq tv with
  | some cs =>
    calculate_advanced_score (euclidean_dist tq tv) (manhattan_dist tq tv)
      cs ((calculate_timing_similarity qf sf : ℚ) : ℝ)
  | none => 100

/-- `np.mean` on the per-sample real scores. -/
noncomputable def rmean (l : List ℝ) : ℝ := l.sum / l.length

/-- Population variance of real scores. -/
noncomputable def rvar (l : List ℝ) : ℝ :=
  ((l.map (fun x => (x - rmean l) ^ 2)).sum) / l.length

/-- `np.std` on real scores. -/
noncomputable def rpstd (l : List ℝ) : ℝ := Real.sqrt (rvar l)

/-- `np.max` on a nonempty list of real scores. -/
noncomputable def rmaxL (l : List ℝ) : ℝ := l.foldl max (l.headD 0)

/-- `np.min` on a nonempty list of real scores. -/
noncomputable def rminL (l : List ℝ) : ℝ := l.foldl min (l.headD 0)

/-- `KeystrokeBiometrics._calculate_confidence`: inverse coefficient of
variation of a user's scores, scaled to [0,100]; 0 for fewer than 2
scores or zero mean. -/
noncomputable def calculate_confidence (scores : List ℝ) : ℝ :=
  if scores.length < 2 then 0
  else if rmean scores = 0 then 0
  else 100 / (1 + rpstd scores / rmean scores)

/-- One entry of `identify`'s result list. -/
structure MatchEntry where
  username : String
  similarity : ℝ
  max_similarity : ℝ
  min_similarity : ℝ
  samples_count : ℕ
  confidence : ℝ

/-- The combined batch `all_vectors` assembled by `identify`: the query
vector followed by every sample vector of every user, in dict order. -/
def identifyAllVectors (q : FDict) (users : List (String × UserInfo)) :
    List (List ℚ) :=
  features_to_vector q :: users.flatMap (fun u => u.2.features.map features_to_vector)

/-- The lazy bootstrap: `if not hasattr(self.scaler, 'mean_'):
self.scaler.fit(all_vectors_array)` (the fit cannot fail on this always
nonempty batch, so the surrounding `except: pass` is dead). -/
def bootstrap (s : Scaler) (vs : List (List ℚ)) : Scaler :=
  match s.fitted with
  | some _ => s
  | none => ⟨some (fitParams vs)⟩

/-- The unsorted per-user entries of `identify`: users with an empty
sample list are skipped (`continue`); for the rest, the per-sample
scores are aggregated into mean/max/min and a confidence. -/
noncomputable def rankEntries (ps : List (ℚ × ℚ)) (q : FDict)
    (users : List (String × UserInfo)) : List MatchEntry :=
  let tq := transformVec ps (features_to_vector q)
  users.filterMap (fun u =>
    if u.2.features = [] then none
    else
      let scores := u.2.features.map (fun f =>
        sampleScore tq (transformVec ps (features_to_vector f)) q f)
      some { username := u.1
             similarity := rmean scores
             max_similarity := rmaxL scores
             min_similarity := rminL scores
             samples_count := u.2.features.length
             confidence := calculate_confidence scores })

/-- Python's stable `list.sort(key=similarity, reverse=True)`. -/
noncomputable def sortDesc (l : List MatchEntry) : List MatchEntry :=
  l.mergeSort (fun a b => decide (b.similarity ≤ a.similarity))

/-- `KeystrokeBiometrics.identify`, with the mutable scaler made
explicit: returns the scaler state after the call together with the
ranked list. -/
noncomputable def identify (s : Scaler) (q : FDict)
    (users : List (String × UserInfo)) (top_k : ℕ) :
    Scaler × List MatchEntry :=
  if users = [] then (s, [])
  else
    let s2 := bootstrap s (identifyAllVectors q users)
    let ps := s2.fitted.getD []
    (s2, (sortDesc (rankEntries ps q users)).take top_k)

/-! ### Claim theorems -/

/-- Claim C1: for every event sequence of length < 2 and any reference
text, `extract_features` returns the canonical all-zero `FeatureVector`:
every one of the 19 numeric fields equals 0 and both raw arrays are
empty. -/
theorem C1_extract_features_degenerate (evs : List KeyEvent) (text : String)
    (h : evs.length < 2) :
    extract_features evs text = emptyFeatures ∧
    (extract_features evs text).dwell_mean = 0 ∧
    (extract_features evs text).dwell_std = 0 ∧
    (extract_features evs text).dwell_median = 0 ∧
    (extract_features evs text).dwell_min = 0 ∧
    (extract_features evs text).dwell_max = 0 ∧
    (extract_features evs text).latency_mean = 0 ∧
    (extract_features evs text).latency_std = 0 ∧
    (extract_features evs text).latency_median = 0 ∧
    (extract_features evs text).latency_min = 0 ∧
    (extract_features evs text).latency_max = 0 ∧
    (extract_features evs text).flight_mean = 0 ∧
    (extract_features evs text).flight_std = 0 ∧
    (extract_features evs text).flight_median = 0 ∧
    (extract_features evs text).typing_speed = 0 ∧
    (extract_features evs text).total_time = 0 ∧
    (extract_features evs text).key_count = 0 ∧
    (extract_features evs text).rhythm_consistency = 0 ∧
    (extract_features evs text).digraph_mean = 0 ∧
    (extract_features evs text).digraph_std = 0 ∧
    (extract_features evs text).raw_dwell_times = [] ∧
    (extract_features evs text).raw_latencies = [] := by
  have he : extract_features evs text = emptyFeatures := by
    unfold extract_features
    rw [if_pos h]
  rw [he]
  exact ⟨rfl, rfl, rfl, rfl, rfl, rfl, rfl, rfl, rfl, rfl, rfl, rfl, rfl,
    rfl, rfl, rfl, rfl, rfl, rfl, rfl, rfl, rfl⟩

/-- Witness for C1 at the empty event sequence. -/
theorem C1_extract_features_degenerate_witness :
    ([] : List KeyEvent).length < 2 ∧
    extract_features [] "" = emptyFeatures :=
  ⟨by decide, (C1_extract_features_degenerate [] "" (by decide)).1⟩

/-- Claim C4: whenever the cosine similarity is a number `cs`, the
per-sample combined score used by `identify` equals
`0.25*(100/(1+euclidean)) + 0.25*(100/(1+manhattan)) +
0.20*((cs+1)*50) + 0.30*timing` clamped by `max(0, min(100, _))`; on
the nan cosine path the clamp of the nan blend evaluates to 100; on
every path the result lies in [0,100]. -/
theorem C4_combined_score_formula (tq tv : List ℝ) (qf sf : FDict) :
    (∀ cs : ℝ, safe_cosine_similarity tq tv = some cs →
      sampleScore tq tv qf sf =
        max 0 (min 100
          (0.25 * (100 / (1 + euclidean_dist tq tv)) +
           0.25 * (100 / (1 + manhattan_dist tq tv)) +
           0.20 * ((cs + 1) * 50) +
           0.30 * ((calculate_timing_similarity qf sf : ℚ) : ℝ)))) ∧
    (safe_cosine_similarity tq tv = none → sampleScore tq tv qf sf = 100) ∧
    0 ≤ sampleScore tq tv qf sf ∧ sampleScore tq tv qf sf ≤ 100 := by
  refine ⟨fun cs hcs => ?_, fun hn => ?_, ?_, ?_⟩
  · unfold sampleScore
    rw [hcs]
    rfl
  · unfold sampleScore
    rw [hn]
  · unfold sampleScore
    cases h : safe_cosine_similarity tq tv with
    | none => norm_num
    | some cs => exact le_max_left 0 _
  · unfold sampleScore
    cases h : safe_cosine_similarity tq tv with
    | none => norm_num
    | some cs =>
      unfold calculate_advanced_score
      exact max_le (by norm_num) (min_le_left _ _)

/-- Claim C7 (part): the fitted parameters are the per-dimension mean
and population variance of the sample columns. -/
theorem fitParams_getD (vs : List (List ℚ)) (j : ℕ)
    (hj : j < feature_names.length) :
    (fitParams vs).getD j (0, 0) =
      (qmean (vs.map (fun v => v.getD j 0)),
       qvar (vs.map (fun v => v.getD j 0))) := by
  unfold fitParams
  rw [List.getD_eq_getElem?_getD, List.getElem?_map, List.getElem?_range hj]
  rfl

/-- Claim C7: `train` is a no-op on the scaler when fewer than 2 total
feature vectors exist (in particular on an empty user mapping), and with
2 or more vectors refits the per-dimension mean/variance over the union
of all samples of all users. -/
theorem C7_train_spec (s : Scaler) (users : List (String × UserInfo)) :
    ((trainVectors users).length < 2 → train s users = s) ∧
    (users = [] → train s users = s) ∧
    (2 ≤ (trainVectors users).length →
      train s users = ⟨some (fitParams (trainVectors users))⟩ ∧
      ∀ j, j < feature_names.length →
        (fitParams (trainVectors users)).getD j (0, 0) =
          (qmean ((trainVectors users).map (fun v => v.getD j 0)),
           qvar ((trainVectors users).map (fun v => v.getD j 0)))) := by
  by_cases hu : users = []
  · subst hu
    exact ⟨fun _ => rfl, fun _ => rfl, fun h2 => absurd h2 (by decide)⟩
  · refine ⟨fun hlt => ?_, fun he => absurd he hu, fun hge => ⟨?_, ?_⟩⟩
    · unfold train
      rw [if_neg hu, if_pos hlt]
    · unfold train
      rw [if_neg hu, if_neg (by omega)]
    · intro j hj
      exact fitParams_getD _ j hj

/-- Witness for C7: a no-op on one user with a single sample, and a
refit on one user with two samples. -/
theorem C7_train_spec_witness :
    (trainVectors [("u", ⟨[[]]⟩)]).length < 2 ∧
    train ⟨none⟩ [("u", ⟨[[]]⟩)] = ⟨none⟩ ∧
    2 ≤ (trainVectors [("u", ⟨[[], []]⟩)]).length ∧
    train ⟨none⟩ [("u", ⟨[[], []]⟩)] =
      ⟨some (fitParams (trainVectors [("u", ⟨[[], []]⟩)]))⟩ :=
  ⟨by decide, (C7_train_spec ⟨none⟩ [("u", ⟨[[]]⟩)]).1 (by decide),
   by decide, ((C7_train_spec ⟨none⟩ [("u", ⟨[[], []]⟩)]).2.2 (by decide)).1⟩

/-- Claim C8: the 19-dimension numeric projection is sanitized before
use: a NaN or infinite field value is replaced by 0, a missing field
defaults to 0, and a finite value is passed through; the projection has
exactly the 19 canonical dimensions and (by its type) contains no
non-finite value. -/
theorem C8_vector_sanitized (d : FDict) :
    (features_to_vector d).length = feature_names.length ∧
    features_to_vector d = feature_names.map (fun n => sanitizeVal (fget d n)) ∧
    ∀ n : String,
      ((fget d n).isNan = true ∨ (fget d n).isInf = true →
        sanitizeVal (fget d n) = 0) ∧
      (d.lookup n = none → sanitizeVal (fget d n) = 0) ∧
      (∀ q : ℚ, fget d n = .fin q → sanitizeVal (fget d n) = q) := by
  refine ⟨List.length_map _ _, rfl, fun n => ⟨fun hbad => ?_, fun hmiss => ?_, fun q hq => ?_⟩⟩
  · unfold sanitizeVal
    rcases hbad with hbad | hbad <;> simp [hbad]
  · unfold fget
    rw [hmiss]
    rfl
  · rw [hq]
    rfl

/-- Witness for C8: a stored NaN is replaced by 0 in the projection. -/
theorem C8_vector_sanitized_witness :
    ((fget [("dwell_mean", PyFloat.nan)] "dwell_mean").isNan = true ∨
     (fget [("dwell_mean", PyFloat.nan)] "dwell_mean").isInf = true) ∧
    sanitizeVal (fget [("dwell_mean", PyFloat.nan)] "dwell_mean") = 0 :=
  ⟨by decide,
   ((C8_vector_sanitized [("dwell_mean", PyFloat.nan)]).2.2 "dwell_mean").1 (by decide)⟩

/-- Claim C6: rhythm consistency is 0 for fewer than 2 latencies or a
zero mean, and otherwise equals `1 / (1 + std/mean)` (population
standard deviation) and lies in the interval (0,1].  Latencies are
differences of chronologically ordered press timestamps, hence
nonnegative. -/
theorem C6_rhythm_consistency_spec (lats : List ℚ) (hnn : ∀ l ∈ lats, 0 ≤ l) :
    (lats.length < 2 ∨ qmean lats = 0 → calculate_rhythm_consistency lats = 0) ∧
    (2 ≤ lats.length → qmean lats ≠ 0 →
      calculate_rhythm_consistency lats =
        1 / (1 + pstd lats / (qmean lats : ℝ)) ∧
      0 < calculate_rhythm_consistency lats ∧
      calculate_rhythm_consistency lats ≤ 1) := by
  constructor
  · rintro (h | h)
    · unfold calculate_rhythm_consistency
      rw [if_pos h]
    · unfold calculate_rhythm_consistency
      by_cases hl : lats.length < 2
      · rw [if_pos hl]
      · rw [if_neg hl, if_pos h]
  · intro hlen hm
    have hnot : ¬lats.length < 2 := by omega
    have heq : calculate_rhythm_consistency lats =
        1 / (1 + pstd lats / (qmean lats : ℝ)) := by
      unfold calculate_rhythm_consistency
      rw [if_neg hnot, if_neg hm]
    have hmean_pos : (0 : ℝ) < (qmean lats : ℝ) := by
      have h1 : (0 : ℚ) ≤ qmean lats := by
        unfold qmean
        exact div_nonneg (List.sum_nonneg hnn) (by positivity)
      exact_mod_cast lt_of_le_of_ne h1 (Ne.symm hm)
    have hcv : (0 : ℝ) ≤ pstd lats / (qmean lats : ℝ) :=
      div_nonneg (Real.sqrt_nonneg _) hmean_pos.le
    refine ⟨heq, ?_, ?_⟩
    · rw [heq]
      exact one_div_pos.mpr (by linarith)
    · rw [heq, div_le_one (by linarith)]
      linarith

/-- Witness for C6 at the two-element latency list `[1, 1]`. -/
theorem C6_rhythm_consistency_spec_witness :
    (∀ l ∈ ([1, 1] : List ℚ), 0 ≤ l) ∧
    2 ≤ ([1, 1] : List ℚ).length ∧ qmean [1, 1] ≠ 0 ∧
    (calculate_rhythm_consistency [1, 1] =
       1 / (1 + pstd [1, 1] / (qmean [1, 1] : ℝ)) ∧
     0 < calculate_rhythm_consistency [1, 1] ∧
     calculate_rhythm_consistency [1, 1] ≤ 1) :=
  ⟨by decide, by decide, by norm_num [qmean],
   (C6_rhythm_consistency_spec [1, 1] (by decide)).2 (by decide)
     (by norm_num [qmean])⟩

/-- Claim C2, corrected: `identify` leaves an already-fitted scaler
unchanged (and touches nothing on an empty user mapping), but when the
scaler has never been fitted it fits it on the combined query-plus-
enrollment batch, and that bootstrap fit IS retained in the model state
after the call. -/
theorem C2_identify_scaler_effect (s : Scaler) (q : FDict)
    (users : List (String × UserInfo)) (k : ℕ) :
    (∀ ps, s.fitted = some ps → (identify s q users k).1 = s) ∧
    (users = [] → (identify s q users k).1 = s) ∧
    (s.fitted = none → users ≠ [] →
      (identify s q users k).1 =
        ⟨some (fitParams (identifyAllVectors q users))⟩) := by
  by_cases hu : users = []
  · subst hu
    exact ⟨fun ps hps => rfl, fun _ => rfl, fun _ hne => absurd rfl hne⟩
  · refine ⟨fun ps hps => ?_, fun h => absurd h hu, fun hnone _ => ?_⟩
    · unfold identify
      rw [if_neg hu]
      show bootstrap s _ = s
      unfold bootstrap
      rw [hps]
    · unfold identify
      rw [if_neg hu]
      show bootstrap s _ = _
      unfold bootstrap
      rw [hnone]

/-- Counterexample to claim C2 as stated: starting from a never-fitted
scaler, one call to `identify` leaves the scaler fitted — the bootstrap
fit is retained in the normalization state after the call. -/
theorem C2_counterexample :
    (Scaler.mk none).fitted = none ∧
    (identify ⟨none⟩ [] [("alice", ⟨[[]]⟩)] 5).1 ≠ Scaler.mk none := by
  refine ⟨rfl, fun h => ?_⟩
  have h2 : (identify (Scaler.mk none) [] [("alice", ⟨[[]]⟩)] 5).1.fitted.isSome
      = true := rfl
  rw [h] at h2
  exact absurd h2 (by decide)

/-- Witness for the corrected C2: the bootstrap fit on a concrete batch
is present in the scaler returned by `identify`. -/
theorem C2_identify_scaler_effect_witness :
    (Scaler.mk none).fitted = none ∧
    ([("alice", (⟨[[]]⟩ : UserInfo))] ≠ ([] : List (String × UserInfo))) ∧
    (identify ⟨none⟩ [] [("alice", ⟨[[]]⟩)] 5).1 =
      ⟨some (fitParams (identifyAllVectors [] [("alice", ⟨[[]]⟩)]))⟩ :=
  ⟨rfl, by decide,
   (C2_identify_scaler_effect ⟨none⟩ [] [("alice", ⟨[[]]⟩)] 5).2.2 rfl (by decide)⟩

/-- Helper: skipping the users with an empty sample list, `identify`
produces exactly one entry per remaining user. -/
theorem rankEntries_length (ps : List (ℚ × ℚ)) (q : FDict)
    (users : List (String × UserInfo)) :
    (rankEntries ps q users).length =
      (users.filter (fun x => x.2.features ≠ [])).length := by
  induction users with
  | nil => rfl
  | cons u rest ih =>
    by_cases hf : u.2.features = []
    · simpa [rankEntries, List.filterMap_cons, List.filter_cons, hf]
        using ih
    · simpa [rankEntries, List.filterMap_cons, List.filter_cons, hf]
        using ih

/-- Helper: when both rows of the fitted batch equal the query vector,
standardization sends the query to the all-zero vector — each
coordinate equals its column mean, so `(x - mean) / scale = 0`. -/
theorem transformVec_self_zero (x : List ℚ) :
    ∀ e ∈ transformVec (fitParams [x, x]) x, e = 0 := by
  intro e he
  unfold transformVec at he
  rw [List.mem_iff_getElem] at he
  obtain ⟨i, hi, hei⟩ := he
  simp only [List.length_map, List.length_zip] at hi
  have h1 : i < x.length := lt_of_lt_of_le hi (min_le_left _ _)
  have h2 : i < (fitParams [x, x]).length := lt_of_lt_of_le hi (min_le_right _ _)
  have h19 : i < feature_names.length := by
    unfold fitParams at h2
    simpa using h2
  have hfp : (fitParams [x, x])[i] =
      (qmean [x.getD i 0, x.getD i 0], qvar [x.getD i 0, x.getD i 0]) := by
    unfold fitParams
    simp
  have hxd : x.getD i 0 = x[i] := List.getD_eq_getElem x 0 h1
  have hq : qmean [x[i], x[i]] = x[i] := by
    unfold qmean
    simp
  rw [List.getElem_map, List.getElem_zip] at hei
  subst hei
  simp only [hfp, hxd, hq]
  simp

/-- Helper: the Euclidean norm of an all-zero vector is 0. -/
theorem norm2_eq_zero_of_all_zero (v : List ℝ) (h : ∀ e ∈ v, e = 0) :
    norm2 v = 0 := by
  unfold norm2
  have hs : (v.map (fun y => y ^ 2)).sum = 0 := by
    apply List.sum_eq_zero
    intro y hy
    rcases List.mem_map.mp hy with ⟨a, ha, rfl⟩
    rw [h a ha]
    norm_num
  rw [hs, Real.sqrt_zero]

/-- Claim C3 names a code bug, evaluated here at a concrete reachable
input: with query features `{}` and the single enrolled sample `{}`
(an enrolled sample identical to the query), the bootstrap-fitted
standardization sends both vectors to the 19-dimension zero vector;
scipy's cosine on these zero-norm vectors yields nan without raising,
so the `except` of `_safe_cosine_similarity` never fires, and the
per-sample combined score evaluates to the best case 100 — not the
worst-case zero cosine similarity the error policy prescribes. -/
theorem C3_degenerate_cosine_best_case :
    norm2 (transformVec (fitParams (identifyAllVectors []
      [("alice", ⟨[[]]⟩)])) (features_to_vector [])) = 0 ∧
    safe_cosine_similarity
      (transformVec (fitParams (identifyAllVectors []
        [("alice", ⟨[[]]⟩)])) (features_to_vector []))
      (transformVec (fitParams (identifyAllVectors []
        [("alice", ⟨[[]]⟩)])) (features_to_vector [])) = none ∧
    sampleScore
      (transformVec (fitParams (identifyAllVectors []
        [("alice", ⟨[[]]⟩)])) (features_to_vector []))
      (transformVec (fitParams (identifyAllVectors []
        [("alice", ⟨[[]]⟩)])) (features_to_vector []))
      [] [] = 100 := by
  have hbatch : identifyAllVectors [] [("alice", ⟨[[]]⟩)] =
      [features_to_vector [], features_to_vector []] := rfl
  have hz : norm2 (transformVec (fitParams (identifyAllVectors []
      [("alice", ⟨[[]]⟩)])) (features_to_vector [])) = 0 := by
    rw [hbatch]
    exact norm2_eq_zero_of_all_zero _ (transformVec_self_zero _)
  have hcos : safe_cosine_similarity
      (transformVec (fitParams (identifyAllVectors []
        [("alice", ⟨[[]]⟩)])) (features_to_vector []))
      (transformVec (fitParams (identifyAllVectors []
        [("alice", ⟨[[]]⟩)])) (features_to_vector [])) = none := by
    unfold safe_cosine_similarity cosineDistance
    rw [if_pos (Or.inl hz)]
    rfl
  refine ⟨hz, hcos, ?_⟩
  unfold sampleScore
  rw [hcos]

/-- Helper: looking up `d` after the in-place running-average update of
key `k` in a Python dict. -/
theorem lookup_dgmap (m : List (String × ℚ)) (k d : String) (x : ℚ) :
    (m.map (fun p => if p.1 = k then (p.1, (p.2 + x) / 2) else p)).lookup d =
      if d = k then (m.lookup d).map (fun v => (v + x) / 2)
      else m.lookup d := by
  induction m with
  | nil => by_cases h : d = k <;> simp [h]
  | cons p m ih =>
    rcases p with ⟨pk, pv⟩
    simp only [List.map_cons]
    by_cases hpk : pk = k
    · subst hpk
      rw [if_pos rfl]
      by_cases hd : d = pk
      · subst hd
        simp
      · have hbeq : (d == pk) = false := beq_eq_false_iff_ne.mpr hd
        simp [List.lookup_cons, hbeq, ih, hd]
    · rw [if_neg hpk]
      by_cases hd : d = pk
      · have hdk : ¬d = k := by
          intro h
          exact hpk (by rw [← hd, h])
        have hbeq : (d == pk) = true := beq_iff_eq.mpr hd
        simp [List.lookup_cons, hbeq, hdk]
      · have hbeq : (d == pk) = false := beq_eq_false_iff_ne.mpr hd
        simp [List.lookup_cons, hbeq, ih]

/-- Helper: how one `dgUpdate` step changes a single lookup. -/
theorem lookup_dgUpdate (m : List (String × ℚ)) (e : String × ℚ) (d : String) :
    (dgUpdate m e).lookup d =
      (if d = e.1 then
        match m.lookup d with
        | some v => some ((v + e.2) / 2)
        | none => some e.2
      else m.lookup d) := by
  rcases e with ⟨k, x⟩
  unfold dgUpdate
  by_cases hs : ((m.lookup k).isSome = true)
  · rw [if_pos hs, lookup_dgmap]
    by_cases hd : d = k
    · subst hd
      rcases hm : m.lookup d with _ | v
      · rw [hm] at hs
        simp at hs
      · simp [hm]
    · simp [hd]
  · rw [if_neg hs, List.lookup_append]
    by_cases hd : d = k
    · subst hd
      have hm : m.lookup d = none := by
        rcases hm : m.lookup d with _ | v
        · rfl
        · rw [hm] at hs
          simp at hs
      simp [hm]
    · simp [List.lookup_cons, hd, beq_false_of_ne hd]

/-- Helper: the dict built by folding `dgUpdate` holds, for each key,
the running average of all observed values for that key. -/
theorem lookup_foldl_dgUpdate (obs : List (String × ℚ))
    (m : List (String × ℚ)) (d : String) :
    (obs.foldl dgUpdate m).lookup d =
      (match m.lookup d with
       | some v => some (avgFold v ((obs.filter (fun p => p.1 = d)).map Prod.snd))
       | none =>
         match (obs.filter (fun p => p.1 = d)).map Prod.snd with
         | [] => none
         | h :: t => some (avgFold h t)) := by
  induction obs generalizing m with
  | nil =>
    rcases hm : m.lookup d with _ | v <;> simp [hm, avgFold]
  | cons e rest ih =>
    rw [List.foldl_cons, ih (dgUpdate m e), lookup_dgUpdate]
    by_cases hd : d = e.1
    · rw [if_pos hd]
      have hfe : (e :: rest).filter (fun p => p.1 = d) =
          e :: rest.filter (fun p => p.1 = d) := by
        rw [List.filter_cons, if_pos (by simp [hd.symm])]
      rcases hm : m.lookup d with _ | v
      · rw [hfe]
        simp [avgFold]
      · rw [hfe]
        simp [avgFold]
    · rw [if_neg hd]
      have hne : ¬(e.1 = d) := fun h => hd h.symm
      have hfe : (e :: rest).filter (fun p => p.1 = d) =
          rest.filter (fun p => p.1 = d) := by
        rw [List.filter_cons, if_neg (by simp [hne])]
      rw [hfe]

/-- Claim C5: the digraph map is keyed only on observed consecutive
single-character press pairs; its stored value is the running average
`(previous + new) / 2` over that digraph's observations in order, so a
digraph seen once stores its raw latency and a digraph seen twice
stores `(first + second) / 2`. -/
theorem C5_digraph_running_average (kds : List KeyEvent) (d : String) :
    ((calculate_digraph_latencies kds).lookup d =
      (match occValues kds d with
       | [] => none
       | h :: t => some (avgFold h t))) ∧
    (∀ p ∈ calculate_digraph_latencies kds,
      p.1 ∈ (digraphObs kds).map Prod.fst) ∧
    (∀ l : ℚ, occValues kds d = [l] →
      (calculate_digraph_latencies kds).lookup d = some l) ∧
    (∀ l1 l2 : ℚ, occValues kds d = [l1, l2] →
      (calculate_digraph_latencies kds).lookup d = some ((l1 + l2) / 2)) := by
  have hmain : ∀ e : String, (calculate_digraph_latencies kds).lookup e =
      (match occValues kds e with
       | [] => none
       | h :: t => some (avgFold h t)) := by
    intro e
    unfold calculate_digraph_latencies occValues
    rw [lookup_foldl_dgUpdate]
    rfl
  refine ⟨hmain d, ?_, ?_, ?_⟩
  · intro p hp
    have h1 : ((calculate_digraph_latencies kds).lookup p.1).isSome = true :=
      List.lookup_isSome_iff.mpr ⟨p, hp, by simp⟩
    rw [hmain p.1] at h1
    rcases hocc : occValues kds p.1 with _ | ⟨a, t⟩
    · rw [hocc] at h1
      simp at h1
    · unfold occValues at hocc
      rcases hfil : (digraphObs kds).filter (fun q => q.1 = p.1) with _ | ⟨y, ys⟩
      · rw [hfil] at hocc
        simp at hocc
      · have hy : y ∈ (digraphObs kds).filter (fun q => q.1 = p.1) := by
          rw [hfil]
          exact List.mem_cons_self y ys
        have hy2 := List.mem_filter.mp hy
        exact List.mem_map.mpr ⟨y, hy2.1, by simpa using hy2.2⟩
  · intro l hocc
    rw [hmain d, hocc]
    rfl
  · intro l1 l2 hocc
    rw [hmain d, hocc]
    rfl

/-- Witness for C5 on a concrete press sequence in which the digraph
`ab` is observed twice (latencies 100 and 80) and is stored as their
average 90. -/
theorem C5_digraph_running_average_witness :
    occValues [⟨"keydown", "a", 0⟩, ⟨"keydown", "b", 100⟩,
      ⟨"keydown", "a", 250⟩, ⟨"keydown", "b", 330⟩] "ab" = [100, 80] ∧
    (calculate_digraph_latencies [⟨"keydown", "a", 0⟩, ⟨"keydown", "b", 100⟩,
      ⟨"keydown", "a", 250⟩, ⟨"keydown", "b", 330⟩]).lookup "ab" =
      some ((100 + 80) / 2) := by
  have hocc : occValues [⟨"keydown", "a", 0⟩, ⟨"keydown", "b", 100⟩,
      ⟨"keydown", "a", 250⟩, ⟨"keydown", "b", 330⟩] "ab" = [100, 80] := by
    norm_num [occValues, digraphObs, consecutivePairs, List.filterMap_cons,
      List.filter_cons,
      show ("a" : String).length = 1 from by decide,
      show ("b" : String).length = 1 from by decide,
      show ("a" ++ "b" : String) = "ab" from by decide,
      show ("b" ++ "a" : String) = "ba" from by decide,
      show ¬(("ba" : String) = "ab") from by decide]
  exact ⟨hocc, (C5_digraph_running_average _ "ab").2.2.2 100 80 hocc⟩

/-- Claim C9: `extract_features` is a total function (this embedding of
it terminates on every input by construction), and every statistic whose
underlying sample set is empty is 0 — for sequences with no matched
dwell pairs, no press events, no release-to-press flights or no
digraphs, the corresponding fields are 0 and the raw arrays empty. -/
theorem C9_sparse_statistics_zero (evs : List KeyEvent) (text : String) :
    (dwellTimes evs = [] →
      (extract_features evs text).dwell_mean = 0 ∧
      (extract_features evs text).dwell_std = 0 ∧
      (extract_features evs text).dwell_median = 0 ∧
      (extract_features evs text).dwell_min = 0 ∧
      (extract_features evs text).dwell_max = 0 ∧
      (extract_features evs text).raw_dwell_times = []) ∧
    (interKeyLatencies evs = [] →
      (extract_features evs text).latency_mean = 0 ∧
      (extract_features evs text).latency_std = 0 ∧
      (extract_features evs text).latency_median = 0 ∧
      (extract_features evs text).latency_min = 0 ∧
      (extract_features evs text).latency_max = 0 ∧
      (extract_features evs text).rhythm_consistency = 0 ∧
      (extract_features evs text).raw_latencies = []) ∧
    (flightTimes evs = [] →
      (extract_features evs text).flight_mean = 0 ∧
      (extract_features evs text).flight_std = 0 ∧
      (extract_features evs text).flight_median = 0) ∧
    (keydowns evs = [] →
      (extract_features evs text).typing_speed = 0 ∧
      (extract_features evs text).total_time = 0 ∧
      (extract_features evs text).key_count = 0) ∧
    (calculate_digraph_latencies (keydowns evs) = [] →
      (extract_features evs text).digraph_mean = 0 ∧
      (extract_features evs text).digraph_std = 0) := by
  by_cases hlen : evs.length < 2
  · have he : extract_features evs text = emptyFeatures := by
      unfold extract_features
      rw [if_pos hlen]
    exact ⟨fun _ => by rw [he]; exact ⟨rfl, rfl, rfl, rfl, rfl, rfl⟩,
      fun _ => by rw [he]; exact ⟨rfl, rfl, rfl, rfl, rfl, rfl, rfl⟩,
      fun _ => by rw [he]; exact ⟨rfl, rfl, rfl⟩,
      fun _ => by rw [he]; exact ⟨rfl, rfl, rfl⟩,
      fun _ => by rw [he]; exact ⟨rfl, rfl⟩⟩
  · refine ⟨fun h => ?_, fun h => ?_, fun h => ?_, fun h => ?_, fun h => ?_⟩
    · simp [extract_features, hlen, h]
    · simp [extract_features, hlen, h, calculate_rhythm_consistency]
    · simp [extract_features, hlen, h]
    · simp [extract_features, hlen, h, calculate_typing_speed]
    · simp [extract_features, hlen, h]

/-- Witness for C9 on a two-event sequence with no press events. -/
theorem C9_sparse_statistics_zero_witness :
    dwellTimes [⟨"keyup", "a", 0⟩, ⟨"keyup", "b", 50⟩] = [] ∧
    keydowns [⟨"keyup", "a", 0⟩, ⟨"keyup", "b", 50⟩] = [] ∧
    (extract_features [⟨"keyup", "a", 0⟩, ⟨"keyup", "b", 50⟩] "ab").dwell_mean
      = 0 ∧
    (extract_features [⟨"keyup", "a", 0⟩, ⟨"keyup", "b", 50⟩] "ab").typing_speed
      = 0 :=
  ⟨by decide, by decide,
   ((C9_sparse_statistics_zero [⟨"keyup", "a", 0⟩, ⟨"keyup", "b", 50⟩] "ab").1
     (by decide)).1,
   ((C9_sparse_statistics_zero [⟨"keyup", "a", 0⟩, ⟨"keyup", "b", 50⟩] "ab").2.2.2.1
     (by decide)).1⟩

/-- Helper: the usernames produced by the per-user ranking loop are
exactly the users with a nonempty sample list, in order. -/
theorem rankEntries_usernames (ps : List (ℚ × ℚ)) (q : FDict)
    (users : List (String × UserInfo)) :
    (rankEntries ps q users).map MatchEntry.username =
      (users.filter (fun x => x.2.features ≠ [])).map Prod.fst := by
  induction users with
  | nil => rfl
  | cons u rest ih =>
    by_cases hf : u.2.features = []
    · simpa [rankEntries, List.filterMap_cons, List.filter_cons, hf] using ih
    · simpa [rankEntries, List.filterMap_cons, List.filter_cons, hf] using ih

/-- Helper: every produced entry belongs to an enrolled user with a
nonempty sample list and reports that user's sample count. -/
theorem mem_rankEntries (ps : List (ℚ × ℚ)) (q : FDict)
    (users : List (String × UserInfo)) (e : MatchEntry)
    (he : e ∈ rankEntries ps q users) :
    ∃ u ∈ users, u.2.features ≠ [] ∧ e.username = u.1 ∧
      e.samples_count = u.2.features.length := by
  simp only [rankEntries] at he
  rcases List.mem_filterMap.mp he with ⟨u, hu, hfu⟩
  by_cases hf : u.2.features = []
  · rw [if_pos hf] at hfu
    cases hfu
  · rw [if_neg hf] at hfu
    rcases Option.some.inj hfu with rfl
    exact ⟨u, hu, hf, rfl, rfl⟩

/-- Helper: Python's stable descending sort permutes the entries. -/
theorem sortDesc_perm (l : List MatchEntry) : (sortDesc l).Perm l :=
  List.mergeSort_perm l _

/-- Helper: the sorted list is pairwise descending in similarity. -/
theorem sortDesc_sorted (l : List MatchEntry) :
    (sortDesc l).Pairwise (fun a b => b.similarity ≤ a.similarity) := by
  have htrans : ∀ a b c : MatchEntry,
      decide (b.similarity ≤ a.similarity) →
      decide (c.similarity ≤ b.similarity) →
      decide (c.similarity ≤ a.similarity) := by
    intro a b c h1 h2
    exact decide_eq_true (le_trans (of_decide_eq_true h2) (of_decide_eq_true h1))
  have htotal : ∀ a b : MatchEntry,
      decide (b.similarity ≤ a.similarity) ||
        decide (a.similarity ≤ b.similarity) := by
    intro a b
    rcases le_total b.similarity a.similarity with h | h <;> simp [h]
  have h := List.sorted_mergeSort htrans htotal l
  exact h.imp (fun hab => of_decide_eq_true hab)

/-- Claim C10: `identify` returns the stable descending-by-similarity
ranking of exactly the users having at least one sample (users with an
empty sample list are omitted), truncated to `top_k`; it is empty for an
empty user mapping. -/
theorem C10_identify_ranking (s : Scaler) (q : FDict)
    (users : List (String × UserInfo)) (k : ℕ) :
    ∃ full : List MatchEntry,
      (identify s q users k).2 = full.take k ∧
      full.Pairwise (fun a b => b.similarity ≤ a.similarity) ∧
      (full.map MatchEntry.username).Perm
        ((users.filter (fun x => x.2.features ≠ [])).map Prod.fst) ∧
      (∀ e ∈ full, ∃ u ∈ users, u.2.features ≠ [] ∧ e.username = u.1 ∧
        e.samples_count = u.2.features.length) ∧
      (identify s q users k).2.length =
        min k ((users.filter (fun x => x.2.features ≠ [])).length) := by
  by_cases hu : users = []
  · subst hu
    exact ⟨[], by simp [identify], List.Pairwise.nil, by simp,
      by simp, by simp [identify]⟩
  · refine ⟨sortDesc (rankEntries
      ((bootstrap s (identifyAllVectors q users)).fitted.getD []) q users),
      ?_, sortDesc_sorted _, ?_, ?_, ?_⟩
    · unfold identify
      rw [if_neg hu]
    · exact ((sortDesc_perm _).map _).trans
        (by rw [rankEntries_usernames])
    · intro e he
      exact mem_rankEntries _ _ _ e ((sortDesc_perm _).mem_iff.mp he)
    · unfold identify
      rw [if_neg hu]
      show ((sortDesc _).take k).length = _
      rw [List.length_take, sortDesc, List.length_mergeSort, rankEntries_length]

end KB
